import Mathlib

/-!
Shallow embedding of the phoenix-koinly-converter conversion engine
(the Go `converter` package): CSV-row parsing (`ParsePhoenixRecord`,
`ReadPhoenixCSV`), classification and unit conversion (`ToKoinlyRecord`),
rounding-residual accumulation and serialization (`CreateKoinlyCSV`).

Modelling conventions:
* Go `float64` amounts are embedded as exact rationals; the decimal
  formatting `fmt.Sprintf("%.8f", sats/1e8)` is embedded as rounding to the
  nearest integer satoshi followed by exact 8-decimal rendering, and
  `strconv.ParseFloat` of such 8-decimal strings as exact decimal parsing.
  All amounts reached by the claims are far inside the range where the Go
  float operations agree with this exact semantics (the satoshi counts of
  any BTC amount stay below 2^53).
* `time.Time` is embedded as a record of calendar fields (`UTCTime`);
  `time.Parse` with layout `2006-01-02T15:04:05.999Z` as
  `parsePhoenixTime`, and `Format` with layout `2006-01-02 15:04:05 Z`
  as `formatKoinlyDate`.
* `time.Now()` (used only for the date of the synthetic rounding-adjustment
  row) is passed in as an explicit `now : String` parameter.
* Go panics (out-of-range slice indexing) and the fatal header-read error
  are distinguished constructors of the result types.
* Logging (`log.Printf`, `LogVerbose`) is a side effect with no influence
  on the produced records and is not modelled.
-/

namespace PhoenixKoinly

/-- Little-endian base-10 digits of `n`, with explicit fuel so that the
definition is structurally recursive and kernel-evaluable. -/
def toDigitsRev (fuel n : ℕ) : List ℕ :=
  match fuel with
  | 0 => []
  | f + 1 => if n = 0 then [] else n % 10 :: toDigitsRev f (n / 10)

/-- Value of a little-endian digit list. -/
def valRev : List ℕ → ℕ
  | [] => 0
  | d :: ds => d + 10 * valRev ds

/-- The ASCII character for a decimal digit. -/
def digitChar (d : ℕ) : Char :=
  match d with
  | 0 => '0' | 1 => '1' | 2 => '2' | 3 => '3' | 4 => '4'
  | 5 => '5' | 6 => '6' | 7 => '7' | 8 => '8' | 9 => '9'
  | _ => '*'

/-- Numeric value of an ASCII digit character. -/
def charVal (c : Char) : ℕ := c.toNat - 48

/-- ASCII decimal digit test. -/
def isDigitChar (c : Char) : Bool := 48 ≤ c.toNat && c.toNat ≤ 57

/-- Value of a big-endian string of decimal digit characters. -/
def parseNatChars (cs : List Char) : ℕ :=
  cs.foldl (fun a c => 10 * a + charVal c) 0

/-- Big-endian decimal rendering of a natural number (no padding). -/
def natChars (n : ℕ) : List Char :=
  if n = 0 then ['0'] else ((toDigitsRev n n).map digitChar).reverse

/-- Big-endian decimal rendering of `n < 10 ^ w`, zero-padded to width `w`. -/
def padChars (w n : ℕ) : List Char :=
  let ds := ((toDigitsRev w n).map digitChar).reverse
  List.replicate (w - ds.length) '0' ++ ds

theorem valRev_toDigitsRev : ∀ fuel n : ℕ, n < 10 ^ fuel →
    valRev (toDigitsRev fuel n) = n := by
  intro fuel
  induction fuel with
  | zero =>
      intro n hn
      simp only [pow_zero, Nat.lt_one_iff] at hn
      subst hn
      rfl
  | succ f ih =>
      intro n hn
      by_cases h0 : n = 0
      · subst h0; simp [toDigitsRev, valRev]
      · have hdiv : n / 10 < 10 ^ f := by
          rw [Nat.div_lt_iff_lt_mul (by norm_num : (0:ℕ) < 10)]
          rw [pow_succ] at hn
          exact hn
        simp only [toDigitsRev, h0, if_false, valRev]
        rw [ih _ hdiv]
        omega

theorem mem_toDigitsRev_lt : ∀ fuel n d : ℕ, d ∈ toDigitsRev fuel n → d < 10 := by
  intro fuel
  induction fuel with
  | zero => intro n d hd; simp [toDigitsRev] at hd
  | succ f ih =>
      intro n d hd
      by_cases h0 : n = 0
      · subst h0; simp [toDigitsRev] at hd
      · simp only [toDigitsRev, h0, if_false, List.mem_cons] at hd
        rcases hd with h | h
        · subst h; exact Nat.mod_lt _ (by norm_num)
        · exact ih _ _ h

theorem length_toDigitsRev : ∀ fuel n : ℕ, (toDigitsRev fuel n).length ≤ fuel := by
  intro fuel
  induction fuel with
  | zero => intro n; simp [toDigitsRev]
  | succ f ih =>
      intro n
      by_cases h0 : n = 0
      · subst h0; simp [toDigitsRev]
      · simp only [toDigitsRev, h0, if_false, List.length_cons]
        exact Nat.succ_le_succ (ih _)

theorem charVal_digitChar (d : ℕ) (hd : d < 10) : charVal (digitChar d) = d := by
  interval_cases d <;> rfl

theorem isDigitChar_digitChar (d : ℕ) (hd : d < 10) :
    isDigitChar (digitChar d) = true := by
  interval_cases d <;> rfl

theorem isDigitChar_ne_dot {c : Char} (hc : isDigitChar c = true) : c ≠ '.' := by
  intro h; subst h; simp [isDigitChar] at hc

theorem isDigitChar_ne_dash {c : Char} (hc : isDigitChar c = true) : c ≠ '-' := by
  intro h; subst h; simp [isDigitChar] at hc

theorem foldl_digitChars : ∀ (l : List ℕ) (acc : ℕ), (∀ d ∈ l, d < 10) →
    List.foldl (fun a c => 10 * a + charVal c) acc ((l.map digitChar).reverse)
      = acc * 10 ^ l.length + valRev l := by
  intro l
  induction l with
  | nil => intro acc _; simp [valRev]
  | cons d t ih =>
      intro acc hd
      have hdl : d < 10 := hd d (List.mem_cons_self d t)
      simp only [List.map_cons, List.reverse_cons, List.foldl_append,
        List.foldl_cons, List.foldl_nil]
      rw [ih acc (fun x hx => hd x (List.mem_cons_of_mem d hx)),
        charVal_digitChar d hdl]
      simp only [valRev, List.length_cons]
      ring

theorem parseNatChars_natChars (n : ℕ) : parseNatChars (natChars n) = n := by
  by_cases h0 : n = 0
  · subst h0; rfl
  · unfold natChars parseNatChars
    rw [if_neg h0]
    rw [foldl_digitChars _ 0 (fun d hd => mem_toDigitsRev_lt n n d hd)]
    rw [valRev_toDigitsRev n n (Nat.lt_pow_self (by norm_num) n)]
    ring

theorem foldl_replicate_zero : ∀ (k acc : ℕ),
    List.foldl (fun a c => 10 * a + charVal c) acc (List.replicate k '0')
      = acc * 10 ^ k := by
  intro k
  induction k with
  | zero => intro acc; simp
  | succ j ih =>
      intro acc
      simp only [List.replicate_succ, List.foldl_cons]
      rw [ih]
      have : charVal '0' = 0 := rfl
      rw [this]
      ring

theorem parseNatChars_padChars (w n : ℕ) (hn : n < 10 ^ w) :
    parseNatChars (padChars w n) = n ∧ (padChars w n).length = w := by
  unfold padChars parseNatChars
  have hlen : ((toDigitsRev w n).map digitChar).reverse.length ≤ w := by
    simpa using length_toDigitsRev w n
  constructor
  · rw [List.foldl_append, foldl_replicate_zero]
    rw [show (0 : ℕ) * 10 ^ (w - ((toDigitsRev w n).map digitChar).reverse.length) = 0 by ring]
    rw [foldl_digitChars _ 0 (fun d hd => mem_toDigitsRev_lt w n d hd)]
    rw [valRev_toDigitsRev w n hn]
    ring
  · simp only [List.length_append, List.length_replicate]
    omega

theorem natChars_ne_nil (n : ℕ) : natChars n ≠ [] := by
  unfold natChars
  by_cases h0 : n = 0
  · simp [h0]
  · rw [if_neg h0]
    obtain ⟨m, rfl⟩ := Nat.exists_eq_succ_of_ne_zero h0
    simp [toDigitsRev]

theorem natChars_digits (n : ℕ) : ∀ c ∈ natChars n, isDigitChar c = true := by
  intro c hc
  unfold natChars at hc
  by_cases h0 : n = 0
  · rw [if_pos h0] at hc
    simp only [List.mem_singleton] at hc
    subst hc; rfl
  · rw [if_neg h0] at hc
    rw [List.mem_reverse] at hc
    obtain ⟨d, hd, rfl⟩ := List.mem_map.1 hc
    exact isDigitChar_digitChar d (mem_toDigitsRev_lt n n d hd)

theorem padChars_digits (w n : ℕ) : ∀ c ∈ padChars w n, isDigitChar c = true := by
  intro c hc
  unfold padChars at hc
  rcases List.mem_append.1 hc with h | h
  · rw [List.eq_of_mem_replicate h]; rfl
  · rw [List.mem_reverse] at h
    obtain ⟨d, hd, rfl⟩ := List.mem_map.1 h
    exact isDigitChar_digitChar d (mem_toDigitsRev_lt w n d hd)

/-- Decimal rendering of `n` satoshis as a BTC amount with 8 decimal places:
the result of Go `fmt.Sprintf("%.8f", x)` at `x = n / 1e8` for the integer
satoshi values produced by the engine. -/
def renderSat8 (n : ℤ) : String :=
  String.mk ((if n < 0 then ['-'] else [])
    ++ natChars (n.natAbs / 100000000) ++ '.' :: padChars 8 (n.natAbs % 100000000))

/-- Exact value of a decimal string `[-]digits.digits`; embeds
`strconv.ParseFloat` on the strings the engine produces. -/
def parseDec8core (l : List Char) : ℚ :=
  (parseNatChars (l.takeWhile fun c => c != '.') : ℚ)
    + (parseNatChars ((l.dropWhile fun c => c != '.').tail) : ℚ)
      / 10 ^ ((l.dropWhile fun c => c != '.').tail).length

/-- Variant of `parseDec8core` with an optional leading minus sign, on a char list. -/
def parseDec8L (l : List Char) : ℚ :=
  match l with
  | [] => 0
  | c :: t => if c = '-' then -parseDec8core t else parseDec8core (c :: t)

/-- Exact numeric value of a fixed-point decimal string (embedding of
`strconv.ParseFloat` on the 8-decimal strings produced by the engine). -/
def parseDec8 (s : String) : ℚ := parseDec8L s.data

theorem takeWhile_dot_split : ∀ (ip fp : List Char), (∀ c ∈ ip, c ≠ '.') →
    ((ip ++ '.' :: fp).takeWhile (fun c => c != '.') = ip
      ∧ (ip ++ '.' :: fp).dropWhile (fun c => c != '.') = '.' :: fp) := by
  intro ip
  induction ip with
  | nil =>
      intro fp _
      constructor
      · simp [List.takeWhile_cons]
      · simp [List.dropWhile_cons]
  | cons c t ih =>
      intro fp hc
      have hcd : c ≠ '.' := hc c (List.mem_cons_self c t)
      have hbne : (c != '.') = true := bne_iff_ne.2 hcd
      obtain ⟨h1, h2⟩ := ih fp (fun x hx => hc x (List.mem_cons_of_mem c hx))
      constructor
      · simp only [List.cons_append, List.takeWhile_cons, hbne, if_true, h1]
      · simp only [List.cons_append, List.dropWhile_cons, hbne, if_true, h2]

theorem parseDec8core_render (ip fp : List Char) (hip : ∀ c ∈ ip, c ≠ '.') :
    parseDec8core (ip ++ '.' :: fp)
      = (parseNatChars ip : ℚ) + (parseNatChars fp : ℚ) / 10 ^ fp.length := by
  obtain ⟨h1, h2⟩ := takeWhile_dot_split ip fp hip
  unfold parseDec8core
  rw [h1, h2]
  rfl

theorem parse_renderSat8 (n : ℤ) : parseDec8 (renderSat8 n) = (n : ℚ) / 10 ^ 8 := by
  have hmod : n.natAbs % 100000000 < 10 ^ 8 := by
    have := Nat.mod_lt n.natAbs (show 0 < 100000000 by norm_num)
    omega
  have hq := parseNatChars_natChars (n.natAbs / 100000000)
  obtain ⟨hr, hrl⟩ := parseNatChars_padChars 8 (n.natAbs % 100000000) hmod
  have hipdot : ∀ c ∈ natChars (n.natAbs / 100000000), c ≠ '.' :=
    fun c hc => isDigitChar_ne_dot (natChars_digits _ c hc)
  have hval : parseDec8core (natChars (n.natAbs / 100000000)
        ++ '.' :: padChars 8 (n.natAbs % 100000000)) = (n.natAbs : ℚ) / 10 ^ 8 := by
    rw [parseDec8core_render _ _ hipdot, hq, hr, hrl]
    have hdm : (n.natAbs / 100000000) * 10 ^ 8 + n.natAbs % 100000000 = n.natAbs := by
      have := Nat.div_add_mod n.natAbs 100000000
      omega
    rw [eq_div_iff (by norm_num : ((10:ℚ) ^ 8) ≠ 0), add_mul,
      div_mul_cancel₀ _ (by norm_num : ((10:ℚ) ^ 8) ≠ 0)]
    exact_mod_cast hdm
  by_cases hneg : n < 0
  · have hdata : (renderSat8 n).data
        = '-' :: (natChars (n.natAbs / 100000000)
            ++ '.' :: padChars 8 (n.natAbs % 100000000)) := by
      unfold renderSat8
      rw [if_pos hneg]
      rfl
    unfold parseDec8
    rw [hdata]
    simp only [parseDec8L]
    rw [if_pos trivial, hval, Int.cast_natAbs, abs_of_neg hneg]
    push_cast
    ring
  · obtain ⟨c, t, hct⟩ :=
      List.exists_cons_of_ne_nil (natChars_ne_nil (n.natAbs / 100000000))
    have hcd : c ≠ '-' := by
      refine isDigitChar_ne_dash (natChars_digits (n.natAbs / 100000000) c ?_)
      rw [hct]; exact List.mem_cons_self c t
    have hdata : (renderSat8 n).data
        = c :: (t ++ '.' :: padChars 8 (n.natAbs % 100000000)) := by
      unfold renderSat8
      rw [if_neg hneg, hct]
      rfl
    unfold parseDec8
    rw [hdata]
    simp only [parseDec8L]
    rw [if_neg hcd]
    have hback : (c :: (t ++ '.' :: padChars 8 (n.natAbs % 100000000)))
        = natChars (n.natAbs / 100000000) ++ '.' :: padChars 8 (n.natAbs % 100000000) := by
      rw [hct]; rfl
    rw [hback, hval, Int.cast_natAbs, abs_of_nonneg (le_of_not_lt hneg)]

theorem renderSat8_ne_empty (n : ℤ) : renderSat8 n ≠ "" := by
  intro h
  have hd : (renderSat8 n).data = [] := by rw [h]
  unfold renderSat8 at hd
  simp only [String.data] at hd
  rcases List.append_eq_nil.1 hd with ⟨_, h2⟩
  exact List.cons_ne_nil _ _ h2

/-- Calendar UTC instant: embedding of the Go `time.Time` values used by the
engine (always UTC; sub-second precision kept as nanoseconds). -/
structure UTCTime where
  year : ℕ
  month : ℕ
  day : ℕ
  hour : ℕ
  minute : ℕ
  second : ℕ
  nanos : ℕ
  deriving DecidableEq

/-- Go `PhoenixRecord` of the source: a single parsed row of the Phoenix CSV.
The Go field `Type` is called `TxType` here because `Type` is a Lean
keyword; `time.Time` is embedded as `UTCTime` and `int64` as `ℤ` (all
values reached by the engine are far inside the 64-bit range). -/
structure PhoenixRecord where
  Timestamp : UTCTime
  TxType : String
  AmountMillisats : ℤ
  MiningFeeSat : ℤ
  ServiceFeeMsat : ℤ
  TransactionID : String
  Description : String
  deriving DecidableEq

/-- Go `KoinlyRecord` of the source: a single row of the Koinly CSV. All
fields are strings, empty (`""`) unless populated. -/
structure KoinlyRecord where
  Date : String := ""
  SentAmount : String := ""
  SentCurrency : String := ""
  ReceivedAmount : String := ""
  ReceivedCurrency : String := ""
  FeeAmount : String := ""
  FeeCurrency : String := ""
  NetWorthAmount : String := ""
  NetWorthCurrency : String := ""
  Label : String := ""
  Description : String := ""
  TxHash : String := ""
  deriving DecidableEq

/-- Constant `satsPerBTC = 100000000` of the source, as an exact rational. -/
def satsPerBTC : ℚ := 100000000

/-- Constant `msatsPerSat = 1000` of the source, as an exact rational. -/
def msatsPerSat : ℚ := 1000

/-- Gregorian leap-year test (as validated by Go `time.Parse`). -/
def isLeapYear (y : ℕ) : Bool :=
  (y % 4 == 0 && y % 100 != 0) || y % 400 == 0

/-- Number of days of a month (as validated by Go `time.Parse`). -/
def daysInMonth (y m : ℕ) : ℕ :=
  match m with
  | 1 => 31
  | 2 => if isLeapYear y then 29 else 28
  | 3 => 31
  | 4 => 30
  | 5 => 31
  | 6 => 30
  | 7 => 31
  | 8 => 31
  | 9 => 30
  | 10 => 31
  | 11 => 30
  | 12 => 31
  | _ => 0

/-- Tail of a Phoenix timestamp after the seconds field: either a literal
`Z`, or a fractional-second part `.d…dZ` with 1 to 9 digits (Go stores at
most nanosecond precision). Returns the fraction in nanoseconds. -/
def parseFracZ (l : List Char) : Option ℕ :=
  match l with
  | ['Z'] => some 0
  | '.' :: more =>
      let ds := more.takeWhile isDigitChar
      if 1 ≤ ds.length && ds.length ≤ 9 && (more.dropWhile isDigitChar == ['Z']) then
        some (parseNatChars ds * 10 ^ (9 - ds.length))
      else none
  | _ => none

/-- Embedding of Go `time.Parse(PhoenixDateFormat, s)` with layout
`2006-01-02T15:04:05.999Z` on a char list: strict
`YYYY-MM-DDTHH:MM:SS(.fff…)Z` with calendar range validation, `none` on
any mismatch (Go returns an error). -/
def parsePhoenixTimeL (l : List Char) : Option UTCTime :=
  match l with
  | y1 :: y2 :: y3 :: y4 :: '-' :: m1 :: m2 :: '-' :: d1 :: d2 :: 'T' ::
      h1 :: h2 :: ':' :: mi1 :: mi2 :: ':' :: s1 :: s2 :: rest =>
    if [y1, y2, y3, y4, m1, m2, d1, d2, h1, h2, mi1, mi2, s1, s2].all isDigitChar then
      match parseFracZ rest with
      | some ns =>
          let year := parseNatChars [y1, y2, y3, y4]
          let month := parseNatChars [m1, m2]
          let day := parseNatChars [d1, d2]
          let hour := parseNatChars [h1, h2]
          let minute := parseNatChars [mi1, mi2]
          let second := parseNatChars [s1, s2]
          if 1 ≤ month && month ≤ 12 && 1 ≤ day && day ≤ daysInMonth year month
              && hour ≤ 23 && minute ≤ 59 && second ≤ 59 then
            some ⟨year, month, day, hour, minute, second, ns⟩
          else none
      | none => none
    else none
  | _ => none

/-- Embedding of Go `time.Parse(PhoenixDateFormat, s)`. -/
def parsePhoenixTime (s : String) : Option UTCTime := parsePhoenixTimeL s.data

/-- Embedding of Go `Format(KoinlyDateFormat)` with layout
`2006-01-02 15:04:05 Z` (trailing literal `Z`). -/
def formatKoinlyDate (t : UTCTime) : String :=
  String.mk (padChars 4 t.year ++ '-' :: padChars 2 t.month ++ '-' :: padChars 2 t.day
    ++ ' ' :: padChars 2 t.hour ++ ':' :: padChars 2 t.minute ++ ':' :: padChars 2 t.second
    ++ [' ', 'Z'])

/-- Embedding of Go `strconv.ParseInt(s, 10, 64)` on a char list: optional
sign, one or more decimal digits, 64-bit range check; `none` where Go
returns a non-nil error. -/
def parseInt64L (l : List Char) : Option ℤ :=
  let sd : Bool × List Char :=
    match l with
    | '+' :: t => (false, t)
    | '-' :: t => (true, t)
    | t => (false, t)
  if !sd.2.isEmpty && sd.2.all isDigitChar then
    let v : ℤ := if sd.1 then -(parseNatChars sd.2 : ℤ) else (parseNatChars sd.2 : ℤ)
    if -(2 ^ 63) ≤ v && v ≤ 2 ^ 63 - 1 then some v else none
  else none

/-- Embedding of Go `strconv.ParseInt(s, 10, 64)`. -/
def parseInt64 (s : String) : Option ℤ := parseInt64L s.data

/-- Embedding of `strings.ReplaceAll(val, ",", "")` of the source. -/
def stripCommas (s : String) : String :=
  String.mk (s.data.filter fun c => c != ',')

/-- Go `ParseIntField` of the source: parses an integer field with commas;
on failure it logs a warning (not modelled) and returns 0. -/
def ParseIntField (val name : String) : ℤ :=
  match parseInt64 (stripCommas val) with
  | none => 0
  | some v => v

/-- Go `FormatBTC` of the source: `fmt.Sprintf("%.8f", sats/satsPerBTC)`.
Rounding to the nearest satoshi models the float-to-8-decimal conversion
(ties, possible only at non-integral half-satoshi values, are taken
upwards here; no claim exercises a tie). -/
def FormatBTC (sats : ℚ) : String := renderSat8 (round sats)

/-- Outcome of `ParsePhoenixRecord` on one row: Go panics on out-of-range
indexing (`panic`), returns a timestamp error (`parseErr`), or returns a
parsed record. -/
inductive RowResult where
  | panic
  | parseErr
  | ok (record : PhoenixRecord)
  deriving DecidableEq

/-- Go `ParsePhoenixRecord` of the source. The row fields are accessed in Go
evaluation order: `record[0]` (timestamp, whose parse error returns before
any further access), then `record[3]`, `record[6]`, `record[8]` (the
numeric fields), then `record[2]`, `record[11]`, `record[13]` in the
struct literal. Any out-of-range access is a Go panic. -/
def ParsePhoenixRecord (record : List String) : RowResult :=
  match record.get? 0 with
  | none => RowResult.panic
  | some f0 =>
    match parsePhoenixTime f0 with
    | none => RowResult.parseErr
    | some timestamp =>
      match record.get? 3, record.get? 6, record.get? 8,
          record.get? 2, record.get? 11, record.get? 13 with
      | some f3, some f6, some f8, some f2, some f11, some f13 =>
          RowResult.ok
            { Timestamp := timestamp
              TxType := f2
              AmountMillisats := ParseIntField f3 "amount_msat"
              MiningFeeSat := ParseIntField f6 "mining_fee_sat"
              ServiceFeeMsat := ParseIntField f8 "service_fee_msat"
              TransactionID := f11
              Description := f13 }
      | _, _, _, _, _, _ => RowResult.panic

/-- Outcome of `ReadPhoenixCSV`: a Go panic, a fatal error (missing header
row), or the parsed records. -/
inductive ReadResult where
  | panic
  | fatal
  | ok (records : List PhoenixRecord)
  deriving DecidableEq

/-- The record a row contributes to the output of `ReadPhoenixCSV`
(`none` for a skipped or panicking row). -/
def okOf (r : List String) : Option PhoenixRecord :=
  match ParsePhoenixRecord r with
  | RowResult.ok p => some p
  | _ => none

/-- The row loop of `ReadPhoenixCSV`: parse errors are logged and the row
skipped; a panic aborts everything. -/
def readRows : List (List String) → ReadResult
  | [] => ReadResult.ok []
  | r :: rest =>
    match ParsePhoenixRecord r with
    | RowResult.panic => ReadResult.panic
    | RowResult.parseErr => readRows rest
    | RowResult.ok p =>
      match readRows rest with
      | ReadResult.ok ps => ReadResult.ok (p :: ps)
      | other => other

/-- Go `ReadPhoenixCSV` of the source, at the level of already-split CSV rows:
the header row is read and discarded (its absence is the fatal error
path), then each data row is parsed with per-row skip on error. -/
def ReadPhoenixCSV (rows : List (List String)) : ReadResult :=
  match rows with
  | [] => ReadResult.fatal
  | _ :: dataRows => readRows dataRows

/-- The quantity `sats := float64(p.AmountMillisats) / msatsPerSat` of the source. -/
def satsOf (p : PhoenixRecord) : ℚ := (p.AmountMillisats : ℚ) / msatsPerSat

/-- Go `ToKoinlyRecord` of the source: maps one Phoenix record to a Koinly
record plus the signed rounding residual (in satoshis). The Go
`strconv.ParseFloat(amt, 64)` of the just-formatted string is embedded as
`parseDec8`. -/
def ToKoinlyRecord (p : PhoenixRecord) : KoinlyRecord × ℚ :=
  let k0 : KoinlyRecord :=
    { Date := formatKoinlyDate p.Timestamp
      TxHash := p.TransactionID
      Description := p.Description }
  let sats : ℚ := satsOf p
  let absSats : ℚ := |sats|
  if p.TxType = "lightning_received" then
    let amt := FormatBTC sats
    ({ k0 with ReceivedAmount := amt, ReceivedCurrency := "BTC", Label := "lightning" },
      sats - parseDec8 amt * satsPerBTC)
  else if p.TxType = "lightning_sent" then
    let amt := FormatBTC absSats
    ({ k0 with SentAmount := amt, SentCurrency := "BTC", Label := "lightning" },
      sats - (-(parseDec8 amt) * satsPerBTC))
  else if p.TxType = "swap_in" ∨ p.TxType = "legacy_swap_in" then
    let amt := FormatBTC sats
    ({ k0 with ReceivedAmount := amt, ReceivedCurrency := "BTC", Label := "transfer" },
      sats - parseDec8 amt * satsPerBTC)
  else if p.TxType = "swap_out" then
    let amt := FormatBTC absSats
    ({ k0 with SentAmount := amt, SentCurrency := "BTC", Label := "transfer" },
      sats - (-(parseDec8 amt) * satsPerBTC))
  else if p.TxType = "channel_open" ∨ p.TxType = "legacy_pay_to_open" then
    let amt := FormatBTC sats
    ({ k0 with ReceivedAmount := amt, ReceivedCurrency := "BTC", Label := "deposit" },
      sats - parseDec8 amt * satsPerBTC)
  else if p.TxType = "channel_close" then
    let amt := FormatBTC absSats
    ({ k0 with FeeAmount := amt, FeeCurrency := "BTC", Label := "cost" },
      sats - (-(parseDec8 amt) * satsPerBTC))
  else
    (k0, 0)

/-- Go `ToStringSlice` of the source: fixed cell order of an output row. -/
def ToStringSlice (k : KoinlyRecord) : List String :=
  [k.Date, k.SentAmount, k.SentCurrency, k.ReceivedAmount, k.ReceivedCurrency,
    k.FeeAmount, k.FeeCurrency, k.NetWorthAmount, k.NetWorthCurrency,
    k.Label, k.Description, k.TxHash]

/-- The `koinlyHeader` literal of `CreateKoinlyCSV`. -/
def koinlyHeader : List String :=
  ["Date", "Sent Amount", "Sent Currency", "Received Amount", "Received Currency",
    "Fee Amount", "Fee Currency", "Net Worth Amount", "Net Worth Currency",
    "Label", "Description", "TxHash"]

/-- The running `roundingDiff` accumulator of `CreateKoinlyCSV` after all
records are mapped. -/
def roundingDiffSum (records : List PhoenixRecord) : ℚ :=
  (records.map fun p => (ToKoinlyRecord p).2).sum

/-- The quantity `roundingSats := int64(math.Round(math.Abs(roundingDiff)))` of the
source (`math.Round` rounds half away from zero, which on the non-negative
argument `|roundingDiff|` coincides with `round`). -/
def roundingSats (records : List PhoenixRecord) : ℤ :=
  round |roundingDiffSum records|

/-- The synthetic rounding-adjustment record of `CreateKoinlyCSV`; `now` is
the formatted `time.Now().UTC()` instant. -/
def costRecord (records : List PhoenixRecord) (now : String) : KoinlyRecord :=
  { Date := now
    FeeAmount := FormatBTC (roundingSats records : ℚ)
    FeeCurrency := "BTC"
    Label := "cost"
    Description := "Adjustment for rounding differences" }

/-- The ledger entries `CreateKoinlyCSV` writes, in order: one per record,
then the rounding-adjustment record when `addCost` is set and the rounded
residual is positive. -/
def koinlyEntries (records : List PhoenixRecord) (now : String) (addCost : Bool) :
    List KoinlyRecord :=
  (records.map fun p => (ToKoinlyRecord p).1)
    ++ (if addCost ∧ 0 < roundingSats records then [costRecord records now] else [])

/-- Go `CreateKoinlyCSV` of the source, as the list of rows written to the
CSV writer: header first, then one row per ledger entry. (Write failures
abort the run in Go; the pure model returns the rows.) -/
def CreateKoinlyCSV (records : List PhoenixRecord) (now : String) (addCost : Bool) :
    List (List String) :=
  koinlyHeader :: (koinlyEntries records now addCost).map ToStringSlice

/-- Outcome of a whole `Convert` run. -/
inductive ConvertResult where
  | panic
  | fatal
  | ok (rows : List (List String))
  deriving DecidableEq

/-- Go `Convert` of the source: read and parse the Phoenix rows, then create
the Koinly rows. -/
def Convert (rows : List (List String)) (now : String) (addRoundingCost : Bool) :
    ConvertResult :=
  match ReadPhoenixCSV rows with
  | ReadResult.panic => ConvertResult.panic
  | ReadResult.fatal => ConvertResult.fatal
  | ReadResult.ok recs => ConvertResult.ok (CreateKoinlyCSV recs now addRoundingCost)

/-- The eight transaction kinds with a case in the `ToKoinlyRecord` switch. -/
def recognizedKind (t : String) : Bool :=
  t = "lightning_received" || t = "lightning_sent" || t = "swap_in"
    || t = "legacy_swap_in" || t = "swap_out" || t = "channel_open"
    || t = "legacy_pay_to_open" || t = "channel_close"

/-- Numeric value of an amount cell: 0 when empty, else its decimal value
(as the regression test reads entries back with `strconv.ParseFloat`). -/
def valBTC (s : String) : ℚ := if s = "" then 0 else parseDec8 s

/-- Signed BTC contribution of one ledger entry:
`receivedAmount - sentAmount - feeAmount`. -/
def entryNetBTC (k : KoinlyRecord) : ℚ :=
  valBTC k.ReceivedAmount - valBTC k.SentAmount - valBTC k.FeeAmount

/-- The sum `sum(receivedAmount) - sum(sentAmount) - sum(feeAmount)` over a list of
ledger entries. -/
def emittedNetBTC (ks : List KoinlyRecord) : ℚ := (ks.map entryNetBTC).sum

/-- Net balance of the parsed input rows: the sum of their
`amountMillisats`, expressed in BTC. -/
def netBalanceBTC (records : List PhoenixRecord) : ℚ :=
  ((records.map fun p => p.AmountMillisats).sum : ℚ) / msatsPerSat / satsPerBTC

/-- Net balance, in satoshis, of the recognized-kind rows only. -/
def recognizedNetSats (records : List PhoenixRecord) : ℚ :=
  (records.map fun p => if recognizedKind p.TxType then satsOf p else 0).sum

theorem toKoinly_lightning_received (p : PhoenixRecord)
    (h : p.TxType = "lightning_received") :
    ToKoinlyRecord p =
      ({ Date := formatKoinlyDate p.Timestamp
         ReceivedAmount := FormatBTC (satsOf p)
         ReceivedCurrency := "BTC"
         Label := "lightning"
         Description := p.Description
         TxHash := p.TransactionID },
       satsOf p - parseDec8 (FormatBTC (satsOf p)) * satsPerBTC) := by
  unfold ToKoinlyRecord
  rw [h]
  simp

theorem toKoinly_lightning_sent (p : PhoenixRecord)
    (h : p.TxType = "lightning_sent") :
    ToKoinlyRecord p =
      ({ Date := formatKoinlyDate p.Timestamp
         SentAmount := FormatBTC |satsOf p|
         SentCurrency := "BTC"
         Label := "lightning"
         Description := p.Description
         TxHash := p.TransactionID },
       satsOf p - (-(parseDec8 (FormatBTC |satsOf p|)) * satsPerBTC)) := by
  unfold ToKoinlyRecord
  rw [h]
  simp

theorem toKoinly_swap_in (p : PhoenixRecord)
    (h : p.TxType = "swap_in" ∨ p.TxType = "legacy_swap_in") :
    ToKoinlyRecord p =
      ({ Date := formatKoinlyDate p.Timestamp
         ReceivedAmount := FormatBTC (satsOf p)
         ReceivedCurrency := "BTC"
         Label := "transfer"
         Description := p.Description
         TxHash := p.TransactionID },
       satsOf p - parseDec8 (FormatBTC (satsOf p)) * satsPerBTC) := by
  rcases h with h | h <;> (unfold ToKoinlyRecord; rw [h]; simp)

theorem toKoinly_swap_out (p : PhoenixRecord)
    (h : p.TxType = "swap_out") :
    ToKoinlyRecord p =
      ({ Date := formatKoinlyDate p.Timestamp
         SentAmount := FormatBTC |satsOf p|
         SentCurrency := "BTC"
         Label := "transfer"
         Description := p.Description
         TxHash := p.TransactionID },
       satsOf p - (-(parseDec8 (FormatBTC |satsOf p|)) * satsPerBTC)) := by
  unfold ToKoinlyRecord
  rw [h]
  simp

theorem toKoinly_channel_open (p : PhoenixRecord)
    (h : p.TxType = "channel_open" ∨ p.TxType = "legacy_pay_to_open") :
    ToKoinlyRecord p =
      ({ Date := formatKoinlyDate p.Timestamp
         ReceivedAmount := FormatBTC (satsOf p)
         ReceivedCurrency := "BTC"
         Label := "deposit"
         Description := p.Description
         TxHash := p.TransactionID },
       satsOf p - parseDec8 (FormatBTC (satsOf p)) * satsPerBTC) := by
  rcases h with h | h <;> (unfold ToKoinlyRecord; rw [h]; simp)

theorem toKoinly_channel_close (p : PhoenixRecord)
    (h : p.TxType = "channel_close") :
    ToKoinlyRecord p =
      ({ Date := formatKoinlyDate p.Timestamp
         FeeAmount := FormatBTC |satsOf p|
         FeeCurrency := "BTC"
         Label := "cost"
         Description := p.Description
         TxHash := p.TransactionID },
       satsOf p - (-(parseDec8 (FormatBTC |satsOf p|)) * satsPerBTC)) := by
  unfold ToKoinlyRecord
  rw [h]
  simp

theorem toKoinly_unknown (p : PhoenixRecord)
    (h : recognizedKind p.TxType = false) :
    ToKoinlyRecord p =
      ({ Date := formatKoinlyDate p.Timestamp
         Description := p.Description
         TxHash := p.TransactionID }, 0) := by
  simp only [recognizedKind, Bool.or_eq_false_iff, decide_eq_false_iff_not] at h
  obtain ⟨⟨⟨⟨⟨⟨⟨h1, h2⟩, h3⟩, h4⟩, h5⟩, h6⟩, h7⟩, h8⟩ := h
  unfold ToKoinlyRecord
  rw [if_neg h1, if_neg h2, if_neg (not_or.2 ⟨h3, h4⟩), if_neg h5,
    if_neg (not_or.2 ⟨h6, h7⟩), if_neg h8]

theorem valBTC_empty : valBTC "" = 0 := rfl

theorem parseDec8_FormatBTC (x : ℚ) :
    parseDec8 (FormatBTC x) = (round x : ℚ) / satsPerBTC := by
  unfold FormatBTC
  rw [parse_renderSat8]
  norm_num [satsPerBTC]

theorem FormatBTC_ne_empty (x : ℚ) : FormatBTC x ≠ "" :=
  renderSat8_ne_empty (round x)

theorem valBTC_FormatBTC (x : ℚ) :
    valBTC (FormatBTC x) = (round x : ℚ) / satsPerBTC := by
  unfold valBTC
  rw [if_neg (FormatBTC_ne_empty x), parseDec8_FormatBTC]

theorem entry_contrib (p : PhoenixRecord) :
    entryNetBTC (ToKoinlyRecord p).1 * satsPerBTC
      = (if recognizedKind p.TxType then satsOf p else 0) - (ToKoinlyRecord p).2 := by
  have hspb : (satsPerBTC : ℚ) ≠ 0 := by norm_num [satsPerBTC]
  by_cases h1 : p.TxType = "lightning_received"
  · rw [toKoinly_lightning_received p h1, if_pos (by simp [recognizedKind, h1])]
    simp only [entryNetBTC, valBTC_FormatBTC, parseDec8_FormatBTC, valBTC_empty, sub_zero, zero_sub]
    field_simp
  · by_cases h2 : p.TxType = "lightning_sent"
    · rw [toKoinly_lightning_sent p h2, if_pos (by simp [recognizedKind, h2])]
      simp only [entryNetBTC, valBTC_FormatBTC, parseDec8_FormatBTC, valBTC_empty, sub_zero, zero_sub]
      field_simp
    · by_cases h3 : p.TxType = "swap_in" ∨ p.TxType = "legacy_swap_in"
      · rw [toKoinly_swap_in p h3,
          if_pos (by rcases h3 with h | h <;> simp [recognizedKind, h])]
        simp only [entryNetBTC, valBTC_FormatBTC, parseDec8_FormatBTC, valBTC_empty, sub_zero, zero_sub]
        field_simp
      · by_cases h4 : p.TxType = "swap_out"
        · rw [toKoinly_swap_out p h4, if_pos (by simp [recognizedKind, h4])]
          simp only [entryNetBTC, valBTC_FormatBTC, parseDec8_FormatBTC, valBTC_empty, sub_zero, zero_sub]
          field_simp
        · by_cases h5 : p.TxType = "channel_open" ∨ p.TxType = "legacy_pay_to_open"
          · rw [toKoinly_channel_open p h5,
              if_pos (by rcases h5 with h | h <;> simp [recognizedKind, h])]
            simp only [entryNetBTC, valBTC_FormatBTC, parseDec8_FormatBTC, valBTC_empty, sub_zero, zero_sub]
            field_simp
          · by_cases h6 : p.TxType = "channel_close"
            · rw [toKoinly_channel_close p h6, if_pos (by simp [recognizedKind, h6])]
              simp only [entryNetBTC, valBTC_FormatBTC, parseDec8_FormatBTC, valBTC_empty, sub_zero, zero_sub]
              field_simp
            · have hun : recognizedKind p.TxType = false := by
                push_neg at h3 h5
                simp [recognizedKind, h1, h2, h3.1, h3.2, h4, h5.1, h5.2, h6]
              rw [toKoinly_unknown p hun, if_neg (by simp [hun])]
              simp [entryNetBTC, valBTC_empty]

theorem emittedNet_eq (records : List PhoenixRecord) (now : String) :
    emittedNetBTC (koinlyEntries records now false) * satsPerBTC
      = recognizedNetSats records - roundingDiffSum records := by
  unfold koinlyEntries
  rw [if_neg (by simp), List.append_nil]
  induction records with
  | nil => simp [emittedNetBTC, recognizedNetSats, roundingDiffSum]
  | cons p ps ih =>
      simp only [List.map_cons, List.sum_cons, emittedNetBTC, recognizedNetSats,
        roundingDiffSum] at ih ⊢
      have hc := entry_contrib p
      rw [add_mul, hc, ih]
      ring

/-! ### Sample inputs used by witnesses and counterexamples -/

/-- A sample timestamp, `2024-05-01T12:00:00.000Z`. -/
def sampleTs : UTCTime := ⟨2024, 5, 1, 12, 0, 0, 0⟩

/-- A successfully parsed record of unrecognized kind carrying 0.02 BTC. -/
def recFooBar : PhoenixRecord :=
  { Timestamp := sampleTs
    TxType := "foo_bar"
    AmountMillisats := 2000000000
    MiningFeeSat := 0
    ServiceFeeMsat := 0
    TransactionID := "tx-unknown"
    Description := "unknown kind" }

/-- The raw CSV row parsing to `recFooBar`. -/
def fooRow : List String :=
  ["2024-05-01T12:00:00.000Z", "u1", "foo_bar", "2000000000", "u4", "u5", "0",
    "u7", "0", "u9", "u10", "tx-unknown", "u12", "unknown kind"]

/-- A 0.4-satoshi lightning receipt (sub-satoshi rounding residual). -/
def recLn400A : PhoenixRecord :=
  { Timestamp := sampleTs, TxType := "lightning_received", AmountMillisats := 400,
    MiningFeeSat := 0, ServiceFeeMsat := 0, TransactionID := "txa", Description := "a" }

/-- A second 0.4-satoshi lightning receipt. -/
def recLn400B : PhoenixRecord :=
  { Timestamp := sampleTs, TxType := "lightning_received", AmountMillisats := 400,
    MiningFeeSat := 0, ServiceFeeMsat := 0, TransactionID := "txb", Description := "b" }

/-- Two sub-satoshi rows whose residuals sum to 0.8 sat (rounds to 1). -/
def sampleRecsRounding : List PhoenixRecord := [recLn400A, recLn400B]

/-- The lightning-received record of the regression test (0.01 BTC). -/
def recLnRcv : PhoenixRecord :=
  { Timestamp := sampleTs, TxType := "lightning_received", AmountMillisats := 1000000000,
    MiningFeeSat := 0, ServiceFeeMsat := 0, TransactionID := "tx1", Description := "desc" }

/-- The channel-close record of the regression test (-150 sats). -/
def recChanClose : PhoenixRecord :=
  { Timestamp := sampleTs, TxType := "channel_close", AmountMillisats := -150000,
    MiningFeeSat := 0, ServiceFeeMsat := 0, TransactionID := "tx3", Description := "desc" }

/-- A well-formed 14-field row. -/
def goodRow1 : List String :=
  ["2024-05-01T12:00:00.000Z", "x", "lightning_received", "1000000000", "x", "x",
    "0", "x", "0", "x", "x", "tx1", "x", "one"]

/-- A 14-field row whose timestamp does not parse. -/
def badTsRow : List String :=
  ["not-a-timestamp", "x", "lightning_received", "1", "x", "x",
    "0", "x", "0", "x", "x", "tx2", "x", "two"]

/-- A second well-formed 14-field row. -/
def goodRow2 : List String :=
  ["2024-06-02T08:30:15.500Z", "x", "channel_close", "-150000", "x", "x",
    "0", "x", "0", "x", "x", "tx3", "x", "three"]

/-! ### Claims -/

/-- C1, counterexample: a run whose single successfully parsed row has the
unknown kind `foo_bar` and carries 0.02 BTC. The emitted entries sum to 0
while the net balance of the parsed input is 0.02 BTC, so with the
rounding-adjustment flag disabled the two differ by far more than the
claimed 1e-8 BTC tolerance. -/
theorem netBalanceCounterexample :
    ReadPhoenixCSV [["header"], fooRow] = ReadResult.ok [recFooBar]
    ∧ ¬(|emittedNetBTC (koinlyEntries [recFooBar] "2025-01-01 00:00:00 Z" false)
          - netBalanceBTC [recFooBar]| ≤ 1 / 10 ^ 8) := by
  constructor
  · decide
  · with_unfolding_all decide

/-- C1 (amended): for every run with the rounding-adjustment flag disabled,
`sum(receivedAmount) - sum(sentAmount) - sum(feeAmount)` over the emitted
ledger entries equals, exactly, the net satoshi balance of the
recognized-kind parsed rows minus the accumulated rounding residual,
expressed in BTC; and re-running the conversion on the same input produces
the same entries. -/
theorem netBalanceReconciliation (records : List PhoenixRecord) (now : String) :
    emittedNetBTC (koinlyEntries records now false)
      = (recognizedNetSats records - roundingDiffSum records) / satsPerBTC
    ∧ koinlyEntries records now false = koinlyEntries records now false := by
  refine ⟨?_, rfl⟩
  rw [eq_div_iff (by norm_num [satsPerBTC] : (satsPerBTC : ℚ) ≠ 0)]
  exact emittedNet_eq records now

/-- C2: `CreateKoinlyCSV` appends exactly one synthetic correction entry iff
the cost flag is set and the rounded absolute residual sum is strictly
positive; the entry has the rounded magnitude as 8-decimal BTC fee, fee
currency BTC, label cost, the fixed memo, and empty sent/received/net-worth
fields; with the flag off, or a zero rounded sum, no entry is added. -/
theorem roundingAdjustmentEntry (records : List PhoenixRecord) (now : String) :
    (0 < roundingSats records →
        koinlyEntries records now true
          = (records.map fun p => (ToKoinlyRecord p).1) ++ [costRecord records now]
      ∧ (costRecord records now).FeeAmount = renderSat8 (roundingSats records)
      ∧ (costRecord records now).FeeCurrency = "BTC"
      ∧ (costRecord records now).Label = "cost"
      ∧ (costRecord records now).Description = "Adjustment for rounding differences"
      ∧ (costRecord records now).Date = now
      ∧ (costRecord records now).SentAmount = ""
      ∧ (costRecord records now).SentCurrency = ""
      ∧ (costRecord records now).ReceivedAmount = ""
      ∧ (costRecord records now).ReceivedCurrency = ""
      ∧ (costRecord records now).NetWorthAmount = ""
      ∧ (costRecord records now).NetWorthCurrency = "")
    ∧ (roundingSats records ≤ 0 →
        koinlyEntries records now true = records.map fun p => (ToKoinlyRecord p).1)
    ∧ koinlyEntries records now false = records.map fun p => (ToKoinlyRecord p).1 := by
  refine ⟨fun h => ⟨?_, ?_, rfl, rfl, rfl, rfl, rfl, rfl, rfl, rfl, rfl, rfl⟩,
    fun h => ?_, ?_⟩
  · unfold koinlyEntries
    rw [if_pos ⟨rfl, h⟩]
  · show FormatBTC (roundingSats records : ℚ) = renderSat8 (roundingSats records)
    unfold FormatBTC
    rw [round_intCast]
  · unfold koinlyEntries
    rw [if_neg (fun hc => absurd hc.2 (not_lt.2 h)), List.append_nil]
  · unfold koinlyEntries
    rw [if_neg (by simp), List.append_nil]

/-- C2 witness: two 0.4-satoshi receipts leave a rounded residual of 1
satoshi, so with the flag on exactly one adjustment entry is appended. -/
theorem roundingAdjustmentEntry_witness :
    0 < roundingSats sampleRecsRounding
    ∧ (koinlyEntries sampleRecsRounding "2025-01-01 00:00:00 Z" true
        = (sampleRecsRounding.map fun p => (ToKoinlyRecord p).1)
          ++ [costRecord sampleRecsRounding "2025-01-01 00:00:00 Z"]
      ∧ (costRecord sampleRecsRounding "2025-01-01 00:00:00 Z").FeeAmount
          = renderSat8 (roundingSats sampleRecsRounding)
      ∧ (costRecord sampleRecsRounding "2025-01-01 00:00:00 Z").FeeCurrency = "BTC"
      ∧ (costRecord sampleRecsRounding "2025-01-01 00:00:00 Z").Label = "cost"
      ∧ (costRecord sampleRecsRounding "2025-01-01 00:00:00 Z").Description
          = "Adjustment for rounding differences"
      ∧ (costRecord sampleRecsRounding "2025-01-01 00:00:00 Z").Date
          = "2025-01-01 00:00:00 Z"
      ∧ (costRecord sampleRecsRounding "2025-01-01 00:00:00 Z").SentAmount = ""
      ∧ (costRecord sampleRecsRounding "2025-01-01 00:00:00 Z").SentCurrency = ""
      ∧ (costRecord sampleRecsRounding "2025-01-01 00:00:00 Z").ReceivedAmount = ""
      ∧ (costRecord sampleRecsRounding "2025-01-01 00:00:00 Z").ReceivedCurrency = ""
      ∧ (costRecord sampleRecsRounding "2025-01-01 00:00:00 Z").NetWorthAmount = ""
      ∧ (costRecord sampleRecsRounding "2025-01-01 00:00:00 Z").NetWorthCurrency = "") :=
  ⟨by with_unfolding_all decide,
    (roundingAdjustmentEntry sampleRecsRounding "2025-01-01 00:00:00 Z").1
      (by with_unfolding_all decide)⟩

/-- Case split on the `ToKoinlyRecord` switch: a kind either hits one of
its six cases or is unrecognized. -/
theorem kind_cases (p : PhoenixRecord) :
    p.TxType = "lightning_received" ∨ p.TxType = "lightning_sent"
      ∨ (p.TxType = "swap_in" ∨ p.TxType = "legacy_swap_in")
      ∨ p.TxType = "swap_out"
      ∨ (p.TxType = "channel_open" ∨ p.TxType = "legacy_pay_to_open")
      ∨ p.TxType = "channel_close"
      ∨ recognizedKind p.TxType = false := by
  by_cases h1 : p.TxType = "lightning_received"
  · exact Or.inl h1
  by_cases h2 : p.TxType = "lightning_sent"
  · exact Or.inr (Or.inl h2)
  by_cases h3 : p.TxType = "swap_in"
  · exact Or.inr (Or.inr (Or.inl (Or.inl h3)))
  by_cases h4 : p.TxType = "legacy_swap_in"
  · exact Or.inr (Or.inr (Or.inl (Or.inr h4)))
  by_cases h5 : p.TxType = "swap_out"
  · exact Or.inr (Or.inr (Or.inr (Or.inl h5)))
  by_cases h6 : p.TxType = "channel_open"
  · exact Or.inr (Or.inr (Or.inr (Or.inr (Or.inl (Or.inl h6)))))
  by_cases h7 : p.TxType = "legacy_pay_to_open"
  · exact Or.inr (Or.inr (Or.inr (Or.inr (Or.inl (Or.inr h7)))))
  by_cases h8 : p.TxType = "channel_close"
  · exact Or.inr (Or.inr (Or.inr (Or.inr (Or.inr (Or.inl h8)))))
  refine Or.inr (Or.inr (Or.inr (Or.inr (Or.inr (Or.inr ?_)))))
  simp [recognizedKind, h1, h2, h3, h4, h5, h6, h7, h8]

/-- In every mapped entry at least two of the three amount fields are
empty, and the net-worth fields are always empty. -/
theorem entry_fields (p : PhoenixRecord) :
    ((ToKoinlyRecord p).1.SentAmount = "" ∧ (ToKoinlyRecord p).1.FeeAmount = ""
      ∨ (ToKoinlyRecord p).1.ReceivedAmount = "" ∧ (ToKoinlyRecord p).1.FeeAmount = ""
      ∨ (ToKoinlyRecord p).1.SentAmount = "" ∧ (ToKoinlyRecord p).1.ReceivedAmount = "")
    ∧ (ToKoinlyRecord p).1.NetWorthAmount = ""
    ∧ (ToKoinlyRecord p).1.NetWorthCurrency = "" := by
  rcases kind_cases p with h | h | h | h | h | h | h
  · rw [toKoinly_lightning_received p h]
    exact ⟨Or.inl ⟨rfl, rfl⟩, rfl, rfl⟩
  · rw [toKoinly_lightning_sent p h]
    exact ⟨Or.inr (Or.inl ⟨rfl, rfl⟩), rfl, rfl⟩
  · rw [toKoinly_swap_in p h]
    exact ⟨Or.inl ⟨rfl, rfl⟩, rfl, rfl⟩
  · rw [toKoinly_swap_out p h]
    exact ⟨Or.inr (Or.inl ⟨rfl, rfl⟩), rfl, rfl⟩
  · rw [toKoinly_channel_open p h]
    exact ⟨Or.inl ⟨rfl, rfl⟩, rfl, rfl⟩
  · rw [toKoinly_channel_close p h]
    exact ⟨Or.inr (Or.inr ⟨rfl, rfl⟩), rfl, rfl⟩
  · rw [toKoinly_unknown p h]
    exact ⟨Or.inl ⟨rfl, rfl⟩, rfl, rfl⟩

/-- At most one of the three amount fields of an entry is non-empty. -/
def amountFieldsAtMostOne (k : KoinlyRecord) : Prop :=
  ((if k.SentAmount = "" then 0 else 1) + (if k.ReceivedAmount = "" then 0 else 1)
    + (if k.FeeAmount = "" then 0 else 1) : ℕ) ≤ 1

theorem atMostOne_cases (k : KoinlyRecord)
    (h : k.SentAmount = "" ∧ k.FeeAmount = ""
      ∨ k.ReceivedAmount = "" ∧ k.FeeAmount = ""
      ∨ k.SentAmount = "" ∧ k.ReceivedAmount = "") :
    amountFieldsAtMostOne k := by
  unfold amountFieldsAtMostOne
  rcases h with ⟨h1, h2⟩ | ⟨h1, h2⟩ | ⟨h1, h2⟩ <;>
    rw [h1, h2] <;> simp <;> split <;> omega

/-- C3: at most one of the sent/received/fee amount fields of any entry the
engine emits (mapped entries and the synthetic correction entry alike) is
non-empty; in the unknown-kind case all three are empty; and the net-worth
fields are empty in every entry. -/
theorem amountFieldExclusivity :
    (∀ (records : List PhoenixRecord) (now : String) (addCost : Bool)
        (k : KoinlyRecord), k ∈ koinlyEntries records now addCost →
          amountFieldsAtMostOne k ∧ k.NetWorthAmount = "" ∧ k.NetWorthCurrency = "")
    ∧ (∀ p : PhoenixRecord, recognizedKind p.TxType = false →
        (ToKoinlyRecord p).1.SentAmount = "" ∧ (ToKoinlyRecord p).1.ReceivedAmount = ""
          ∧ (ToKoinlyRecord p).1.FeeAmount = "") := by
  constructor
  · intro records now addCost k hk
    unfold koinlyEntries at hk
    rcases List.mem_append.1 hk with hm | hc
    · obtain ⟨p, hp, rfl⟩ := List.mem_map.1 hm
      obtain ⟨hdis, hn1, hn2⟩ := entry_fields p
      exact ⟨atMostOne_cases _ hdis, hn1, hn2⟩
    · by_cases hif : addCost = true ∧ 0 < roundingSats records
      · rw [if_pos hif] at hc
        simp only [List.mem_singleton] at hc
        subst hc
        exact ⟨atMostOne_cases _ (Or.inr (Or.inr ⟨rfl, rfl⟩)), rfl, rfl⟩
      · rw [if_neg hif] at hc
        simp at hc
  · intro p h
    rw [toKoinly_unknown p h]
    exact ⟨rfl, rfl, rfl⟩

/-- C3 witness: a mapped entry of a concrete run with the correction entry
enabled satisfies the invariant. -/
theorem amountFieldExclusivity_witness :
    (ToKoinlyRecord recLn400A).1 ∈ koinlyEntries sampleRecsRounding "now" true
    ∧ (amountFieldsAtMostOne (ToKoinlyRecord recLn400A).1
        ∧ (ToKoinlyRecord recLn400A).1.NetWorthAmount = ""
        ∧ (ToKoinlyRecord recLn400A).1.NetWorthCurrency = "") :=
  ⟨by with_unfolding_all decide,
    amountFieldExclusivity.1 sampleRecsRounding "now" true
      (ToKoinlyRecord recLn400A).1 (by with_unfolding_all decide)⟩

/-- C4: an unrecognized kind yields an entry whose six amount/currency
fields are all empty, whose date, external id and memo are copied from the
input, and a zero rounding residual; the mapper is total (the run does not
fail — the Go warning log is a side effect outside the model). -/
theorem unknownKindMetadataOnly (p : PhoenixRecord)
    (h : recognizedKind p.TxType = false) :
    (ToKoinlyRecord p).1.SentAmount = "" ∧ (ToKoinlyRecord p).1.SentCurrency = ""
    ∧ (ToKoinlyRecord p).1.ReceivedAmount = ""
    ∧ (ToKoinlyRecord p).1.ReceivedCurrency = ""
    ∧ (ToKoinlyRecord p).1.FeeAmount = "" ∧ (ToKoinlyRecord p).1.FeeCurrency = ""
    ∧ (ToKoinlyRecord p).1.Date = formatKoinlyDate p.Timestamp
    ∧ (ToKoinlyRecord p).1.TxHash = p.TransactionID
    ∧ (ToKoinlyRecord p).1.Description = p.Description
    ∧ (ToKoinlyRecord p).2 = 0 := by
  rw [toKoinly_unknown p h]
  exact ⟨rfl, rfl, rfl, rfl, rfl, rfl, rfl, rfl, rfl, rfl⟩

/-- C4 witness: the `foo_bar` record. -/
theorem unknownKindMetadataOnly_witness :
    recognizedKind recFooBar.TxType = false
    ∧ ((ToKoinlyRecord recFooBar).1.SentAmount = ""
      ∧ (ToKoinlyRecord recFooBar).1.SentCurrency = ""
      ∧ (ToKoinlyRecord recFooBar).1.ReceivedAmount = ""
      ∧ (ToKoinlyRecord recFooBar).1.ReceivedCurrency = ""
      ∧ (ToKoinlyRecord recFooBar).1.FeeAmount = ""
      ∧ (ToKoinlyRecord recFooBar).1.FeeCurrency = ""
      ∧ (ToKoinlyRecord recFooBar).1.Date = formatKoinlyDate recFooBar.Timestamp
      ∧ (ToKoinlyRecord recFooBar).1.TxHash = recFooBar.TransactionID
      ∧ (ToKoinlyRecord recFooBar).1.Description = recFooBar.Description
      ∧ (ToKoinlyRecord recFooBar).2 = 0) :=
  ⟨by decide, unknownKindMetadataOnly recFooBar (by decide)⟩

/-- The row loop collects exactly the successfully parsed rows whenever no
row panics. -/
theorem readRows_no_panic : ∀ l : List (List String),
    (∀ r ∈ l, ParsePhoenixRecord r ≠ RowResult.panic) →
    readRows l = ReadResult.ok (l.filterMap okOf) := by
  intro l
  induction l with
  | nil => intro _; rfl
  | cons r t ih =>
      intro h
      have hr := h r (List.mem_cons_self r t)
      have ht := ih fun x hx => h x (List.mem_cons_of_mem r hx)
      rcases hp : ParsePhoenixRecord r with _ | _ | p
      · exact absurd hp hr
      · rw [show readRows (r :: t) = readRows t by simp [readRows, hp], ht]
        congr 1
        rw [List.filterMap_cons_none]
        simp [okOf, hp]
      · rw [show readRows (r :: t)
            = match readRows t with
              | ReadResult.ok ps => ReadResult.ok (p :: ps)
              | other => other
          by simp [readRows, hp], ht]
        simp [List.filterMap_cons, okOf, hp]

/-- C5: a data row whose timestamp does not parse is dropped while the run
continues: with any rows before and after it, the output contains exactly
the entries of the successfully parsed rows, in order; and a row fails with
the recoverable `parseErr` (not a panic or a fatal error) precisely when
its first field does not parse as a timestamp. -/
theorem timestampRowSkip :
    (∀ (hdr : List String) (pre post : List (List String)) (bad : List String),
        (∀ r ∈ pre ++ bad :: post, ParsePhoenixRecord r ≠ RowResult.panic) →
        ParsePhoenixRecord bad = RowResult.parseErr →
        ReadPhoenixCSV (hdr :: (pre ++ bad :: post))
          = ReadResult.ok (pre.filterMap okOf ++ post.filterMap okOf))
    ∧ (∀ (r : List String) (f0 : String), r.get? 0 = some f0 →
        parsePhoenixTime f0 = none → ParsePhoenixRecord r = RowResult.parseErr) := by
  constructor
  · intro hdr pre post bad hnp hbad
    show readRows (pre ++ bad :: post) = _
    rw [readRows_no_panic _ hnp, List.filterMap_append]
    congr 1
    rw [List.filterMap_cons_none]
    simp [okOf, hbad]
  · intro r f0 h0 hpt
    unfold ParsePhoenixRecord
    rw [h0]
    simp [hpt]

/-- C5 witness: a malformed-timestamp row between two well-formed rows is
skipped and both neighbours are kept. -/
theorem timestampRowSkip_witness :
    ParsePhoenixRecord badTsRow = RowResult.parseErr
    ∧ ReadPhoenixCSV [["header"], goodRow1, badTsRow, goodRow2]
        = ReadResult.ok ([goodRow1].filterMap okOf ++ [goodRow2].filterMap okOf) :=
  ⟨by decide,
    timestampRowSkip.1 ["header"] [goodRow1] [goodRow2] badTsRow (by decide) (by decide)⟩

/-- C6: rows with at least 14 fields and a valid timestamp always parse;
the three numeric fields go through `ParseIntField`, which strips commas
before integer parsing and defaults the field alone to zero when parsing
still fails (the row itself is kept, all other fields copied verbatim). -/
theorem numericFieldDefaultZero :
    (∀ (f0 f1 f2 f3 f4 f5 f6 f7 f8 f9 f10 f11 f12 f13 : String)
        (rest : List String) (ts : UTCTime),
        parsePhoenixTime f0 = some ts →
        ParsePhoenixRecord
            ([f0, f1, f2, f3, f4, f5, f6, f7, f8, f9, f10, f11, f12, f13] ++ rest)
          = RowResult.ok
              { Timestamp := ts
                TxType := f2
                AmountMillisats := ParseIntField f3 "amount_msat"
                MiningFeeSat := ParseIntField f6 "mining_fee_sat"
                ServiceFeeMsat := ParseIntField f8 "service_fee_msat"
                TransactionID := f11
                Description := f13 })
    ∧ (∀ val name : String,
        parseInt64 (stripCommas val) = none → ParseIntField val name = 0)
    ∧ (∀ (val name : String) (v : ℤ),
        parseInt64 (stripCommas val) = some v → ParseIntField val name = v) := by
  refine ⟨?_, ?_, ?_⟩
  · intro f0 f1 f2 f3 f4 f5 f6 f7 f8 f9 f10 f11 f12 f13 rest ts hts
    simp [ParsePhoenixRecord, hts]
  · intro val name h
    unfold ParseIntField
    rw [h]
  · intro val name v h
    unfold ParseIntField
    rw [h]

/-- C6 witness: a comma-grouped amount parses to its digits, a
non-numeric mining fee defaults to zero, and the row is kept. -/
theorem numericFieldDefaultZero_witness :
    parsePhoenixTime "2024-05-01T12:00:00.000Z" = some sampleTs
    ∧ ParsePhoenixRecord
          (["2024-05-01T12:00:00.000Z", "u", "lightning_received", "1,234", "u", "u",
            "abc", "u", "0", "u", "u", "tx9", "u", "memo"] ++ [])
        = RowResult.ok
            { Timestamp := sampleTs
              TxType := "lightning_received"
              AmountMillisats := ParseIntField "1,234" "amount_msat"
              MiningFeeSat := ParseIntField "abc" "mining_fee_sat"
              ServiceFeeMsat := ParseIntField "0" "service_fee_msat"
              TransactionID := "tx9"
              Description := "memo" }
    ∧ ParseIntField "1,234" "amount_msat" = 1234
    ∧ ParseIntField "abc" "mining_fee_sat" = 0 :=
  ⟨by decide,
    numericFieldDefaultZero.1 "2024-05-01T12:00:00.000Z" "u" "lightning_received"
      "1,234" "u" "u" "abc" "u" "0" "u" "u" "tx9" "u" "memo" [] sampleTs (by decide),
    by decide, by decide⟩

/-- C7: a lightning_received row of 1,000,000,000 millisats maps to a
received amount of "0.01000000" BTC with label lightning and a rounding
residual of at most 1e-9 satoshi in magnitude. -/
theorem lightningReceivedExample (p : PhoenixRecord)
    (h1 : p.TxType = "lightning_received") (h2 : p.AmountMillisats = 1000000000) :
    (ToKoinlyRecord p).1.ReceivedAmount = "0.01000000"
    ∧ (ToKoinlyRecord p).1.ReceivedCurrency = "BTC"
    ∧ (ToKoinlyRecord p).1.Label = "lightning"
    ∧ |(ToKoinlyRecord p).2| ≤ 1 / 10 ^ 9 := by
  have hs : satsOf p = 1000000 := by
    unfold satsOf msatsPerSat
    rw [h2]
    norm_num
  have hround : round ((1000000 : ℚ)) = 1000000 := by with_unfolding_all decide
  have hfmt : FormatBTC ((1000000 : ℚ)) = "0.01000000" := by with_unfolding_all decide
  rw [toKoinly_lightning_received p h1, hs]
  refine ⟨hfmt, rfl, rfl, ?_⟩
  rw [parseDec8_FormatBTC, hround]
  norm_num [satsPerBTC]

/-- C7 witness: the concrete record of the regression test. -/
theorem lightningReceivedExample_witness :
    recLnRcv.TxType = "lightning_received" ∧ recLnRcv.AmountMillisats = 1000000000
    ∧ ((ToKoinlyRecord recLnRcv).1.ReceivedAmount = "0.01000000"
      ∧ (ToKoinlyRecord recLnRcv).1.ReceivedCurrency = "BTC"
      ∧ (ToKoinlyRecord recLnRcv).1.Label = "lightning"
      ∧ |(ToKoinlyRecord recLnRcv).2| ≤ 1 / 10 ^ 9) :=
  ⟨rfl, rfl, lightningReceivedExample recLnRcv rfl rfl⟩

/-- C8: a channel_close row of -150,000 millisats maps to a fee-only entry
of "0.00000150" BTC with label cost and empty sent/received fields. -/
theorem channelCloseExample (p : PhoenixRecord)
    (h1 : p.TxType = "channel_close") (h2 : p.AmountMillisats = -150000) :
    (ToKoinlyRecord p).1.FeeAmount = "0.00000150"
    ∧ (ToKoinlyRecord p).1.FeeCurrency = "BTC"
    ∧ (ToKoinlyRecord p).1.Label = "cost"
    ∧ (ToKoinlyRecord p).1.SentAmount = ""
    ∧ (ToKoinlyRecord p).1.SentCurrency = ""
    ∧ (ToKoinlyRecord p).1.ReceivedAmount = ""
    ∧ (ToKoinlyRecord p).1.ReceivedCurrency = "" := by
  have hs : |satsOf p| = 150 := by
    unfold satsOf msatsPerSat
    rw [h2]
    rw [show ((-150000 : ℤ) : ℚ) / 1000 = -150 by norm_num]
    rw [abs_neg, abs_of_nonneg (by norm_num : (0:ℚ) ≤ 150)]
  have hfmt : FormatBTC ((150 : ℚ)) = "0.00000150" := by with_unfolding_all decide
  rw [toKoinly_channel_close p h1, hs]
  exact ⟨hfmt, rfl, rfl, rfl, rfl, rfl, rfl⟩

/-- C8 witness: the concrete record of the regression test. -/
theorem channelCloseExample_witness :
    recChanClose.TxType = "channel_close" ∧ recChanClose.AmountMillisats = -150000
    ∧ ((ToKoinlyRecord recChanClose).1.FeeAmount = "0.00000150"
      ∧ (ToKoinlyRecord recChanClose).1.FeeCurrency = "BTC"
      ∧ (ToKoinlyRecord recChanClose).1.Label = "cost"
      ∧ (ToKoinlyRecord recChanClose).1.SentAmount = ""
      ∧ (ToKoinlyRecord recChanClose).1.SentCurrency = ""
      ∧ (ToKoinlyRecord recChanClose).1.ReceivedAmount = ""
      ∧ (ToKoinlyRecord recChanClose).1.ReceivedCurrency = "") :=
  ⟨rfl, rfl, channelCloseExample recChanClose rfl rfl⟩

/-- C9: the serializer emits the fixed 12-column header first, then one row
per ledger entry in input order with the correction entry last when
present, each row's cells in the fixed column order. -/
theorem serializerLayout (records : List PhoenixRecord) (now : String) (addCost : Bool) :
    CreateKoinlyCSV records now addCost
      = ["Date", "Sent Amount", "Sent Currency", "Received Amount", "Received Currency",
          "Fee Amount", "Fee Currency", "Net Worth Amount", "Net Worth Currency",
          "Label", "Description", "TxHash"]
        :: (koinlyEntries records now addCost).map ToStringSlice
    ∧ koinlyEntries records now addCost
        = (records.map fun p => (ToKoinlyRecord p).1)
          ++ (if addCost ∧ 0 < roundingSats records then [costRecord records now] else [])
    ∧ (∀ k : KoinlyRecord, ToStringSlice k
        = [k.Date, k.SentAmount, k.SentCurrency, k.ReceivedAmount, k.ReceivedCurrency,
            k.FeeAmount, k.FeeCurrency, k.NetWorthAmount, k.NetWorthCurrency,
            k.Label, k.Description, k.TxHash])
    ∧ koinlyHeader.length = 12
    ∧ (∀ k : KoinlyRecord, (ToStringSlice k).length = 12) :=
  ⟨rfl, rfl, fun _ => rfl, rfl, fun _ => rfl⟩

/-- C10: `ParsePhoenixRecord` reads indices 0, 2, 3, 6, 8, 11 and 13 with
no length check: every row with at least 14 fields stays inside the
recoverable paths, while some shorter row (here 13 fields with a valid
timestamp) reaches an out-of-range access, i.e. a Go panic rather than the
per-row skip-and-warn recovery. -/
theorem shortRowPanic :
    (∀ record : List String, 14 ≤ record.length →
        ParsePhoenixRecord record ≠ RowResult.panic)
    ∧ (∃ record : List String, record.length < 14
        ∧ ParsePhoenixRecord record = RowResult.panic) := by
  constructor
  · intro record hlen
    have hget : ∀ i : ℕ, i < 14 → ∃ a, record.get? i = some a := by
      intro i hi
      cases hg : record.get? i with
      | some a => exact ⟨a, rfl⟩
      | none =>
          have := List.get?_eq_none.1 hg
          omega
    obtain ⟨f0, h0⟩ := hget 0 (by norm_num)
    obtain ⟨f2, hg2⟩ := hget 2 (by norm_num)
    obtain ⟨f3, hg3⟩ := hget 3 (by norm_num)
    obtain ⟨f6, hg6⟩ := hget 6 (by norm_num)
    obtain ⟨f8, hg8⟩ := hget 8 (by norm_num)
    obtain ⟨f11, hg11⟩ := hget 11 (by norm_num)
    obtain ⟨f13, hg13⟩ := hget 13 (by norm_num)
    unfold ParsePhoenixRecord
    rw [h0]
    cases hpt : parsePhoenixTime f0 with
    | none => simp [hpt]
    | some ts =>
        rw [hg3, hg6, hg8, hg2, hg11, hg13]
        simp [hpt]
  · exact ⟨["2024-05-01T12:00:00.000Z", "", "", "", "", "", "", "", "", "", "", "", ""],
      by decide, by decide⟩

/-- C10 witness: a concrete 14-field row does not panic. -/
theorem shortRowPanic_witness :
    14 ≤ goodRow1.length ∧ ParsePhoenixRecord goodRow1 ≠ RowResult.panic :=
  ⟨by decide, shortRowPanic.1 goodRow1 (by decide)⟩

end PhoenixKoinly
